import Mathlib

/-!
# FramePusher physics — formal model

A shallow embedding of the physics core of the FramePusher game
(`src/game/Physics.js`, driven by `src/game/FramePusher.js`), together
with theorems about its containment (drag) and settling (spring) engines.

Numbers are modelled as rationals (`ℚ`): the JavaScript source performs
only addition, subtraction, multiplication and comparison on its values.
The mutable array of frame objects is modelled as a `List Frame`, with
in-place mutation rendered as explicit `List.set` updates threaded
through the loops.
-/

/-- A frame record: top-left position `x, y`, velocity `vx, vy`, and
size `width, height`, mirroring the objects created by
`FramePusher._createFrames`. -/
@[ext]
structure Frame where
  x : ℚ
  y : ℚ
  vx : ℚ
  vy : ℚ
  width : ℚ
  height : ℚ
  deriving DecidableEq, Repr

instance : Inhabited Frame := ⟨⟨0, 0, 0, 0, 0, 0⟩⟩

/-- The configuration fields read by the `Physics` constructor
(`this.FRAME_THICKNESS = config.FRAME_THICKNESS; ...`). -/
structure Physics where
  FRAME_THICKNESS : ℚ
  GAP : ℚ
  DAMPING : ℚ
  SPRING_STRENGTH : ℚ
  deriving DecidableEq, Repr

/-- `Physics._applyLeftPush`: clamp `parent.x` down to
`child.x - parentInnerOffset` when it exceeds that target. -/
def applyLeftPush (off : ℚ) (parent child : Frame) : Frame :=
  let targetX := child.x - off
  if parent.x > targetX then { parent with x := targetX } else parent

/-- `Physics._applyRightPush`: clamp `parent.x` up to
`child.x + child.width - parent.width + parentInnerOffset` when it is
below that target. -/
def applyRightPush (off : ℚ) (parent child : Frame) : Frame :=
  let targetX := child.x + child.width - parent.width + off
  if parent.x < targetX then { parent with x := targetX } else parent

/-- `Physics._applyTopPush`: the `y` analogue of the left push. -/
def applyTopPush (off : ℚ) (parent child : Frame) : Frame :=
  let targetY := child.y - off
  if parent.y > targetY then { parent with y := targetY } else parent

/-- `Physics._applyBottomPush`: the `y` analogue of the right push. -/
def applyBottomPush (off : ℚ) (parent child : Frame) : Frame :=
  let targetY := child.y + child.height - parent.height + off
  if parent.y < targetY then { parent with y := targetY } else parent

/-- The body of one iteration of the `updateDragPhysics` loop: the four
pushes applied to a parent against its child, in source order
(left, right, top, bottom). -/
def pushPair (off : ℚ) (parent child : Frame) : Frame :=
  applyBottomPush off (applyTopPush off (applyRightPush off (applyLeftPush off parent child) child) child) child

/-- One iteration of the `updateDragPhysics` loop at index `i`:
`parent = frames[i]` is replaced by the four pushes against
`child = frames[i + 1]`. -/
def dragStep (off : ℚ) (i : ℕ) (fs : List Frame) : List Frame :=
  fs.set i (pushPair off (fs.getD i default) (fs.getD (i + 1) default))

/-- The `updateDragPhysics` loop with `k` iterations left: processes
indices `k - 1` down to `0`, highest first. -/
def dragLoop (off : ℚ) : ℕ → List Frame → List Frame
  | 0, fs => fs
  | k + 1, fs => dragLoop off k (dragStep off k fs)

/-- `Physics.updateDragPhysics(frames, numFrames)`: iterates the pair
update from index `numFrames - 2` down to `0` (no iterations when
`numFrames ≤ 1`). -/
def updateDragPhysics (P : Physics) (frames : List Frame) (numFrames : ℕ) : List Frame :=
  dragLoop P.FRAME_THICKNESS (numFrames - 1) frames

/-- The first phase of `updateSettlingPhysics` applied to one frame:
`vx *= DAMPING; vy *= DAMPING; x += vx; y += vy`. -/
def integrate (damping : ℚ) (f : Frame) : Frame :=
  let vx := f.vx * damping
  let vy := f.vy * damping
  { f with vx := vx, vy := vy, x := f.x + vx, y := f.y + vy }

/-- The static zero-velocity canvas rectangle returned by
`Physics._getParentFrame` for index `0`. -/
def canvasFrame (cw ch : ℚ) : Frame :=
  { x := 0, y := 0, width := cw, height := ch, vx := 0, vy := 0 }

/-- The boundary record computed by `Physics._calculateBoundaries`. -/
structure Boundaries where
  minX : ℚ
  maxX : ℚ
  minY : ℚ
  maxY : ℚ
  deriving DecidableEq, Repr

/-- `Physics._calculateBoundaries(parent, frame, parentInnerOffset)`. -/
def calculateBoundaries (parent frame : Frame) (off : ℚ) : Boundaries :=
  { minX := parent.x + off
    maxX := parent.x + parent.width - off - frame.width
    minY := parent.y + off
    maxY := parent.y + parent.height - off - frame.height }

/-- `Physics._applySpringForces(frame, parent, boundaries, hasParent)`:
four sequential boundary checks, each adding `overlap * SPRING_STRENGTH`
to the frame's velocity and, when `hasParent`, subtracting
`overlap * SPRING_STRENGTH * 0.5` from the parent's velocity. Returns
the updated `(frame, parent)` pair. -/
def applySpringForces (S : ℚ) (frame parent : Frame) (b : Boundaries) (hasParent : Bool) : Frame × Frame :=
  let ov1 := b.minX - frame.x
  let f1 := if ov1 > 0 then { frame with vx := frame.vx + ov1 * S } else frame
  let p1 := if ov1 > 0 ∧ hasParent = true then { parent with vx := parent.vx - ov1 * S * (1/2) } else parent
  let ov2 := b.maxX - f1.x
  let f2 := if ov2 < 0 then { f1 with vx := f1.vx + ov2 * S } else f1
  let p2 := if ov2 < 0 ∧ hasParent = true then { p1 with vx := p1.vx - ov2 * S * (1/2) } else p1
  let ov3 := b.minY - f2.y
  let f3 := if ov3 > 0 then { f2 with vy := f2.vy + ov3 * S } else f2
  let p3 := if ov3 > 0 ∧ hasParent = true then { p2 with vy := p2.vy - ov3 * S * (1/2) } else p2
  let ov4 := b.maxY - f3.y
  let f4 := if ov4 < 0 then { f3 with vy := f3.vy + ov4 * S } else f3
  let p4 := if ov4 < 0 ∧ hasParent = true then { p3 with vy := p3.vy - ov4 * S * (1/2) } else p3
  (f4, p4)

/-- One iteration of the spring loop of `updateSettlingPhysics` at
index `i`: the frame is corrected against its parent
(`frames[i - 1]`, or the canvas when `i = 0`) and both updated records
are written back (the canvas parent is discarded). -/
def settleStep (off S cw ch : ℚ) (i : ℕ) (fs : List Frame) : List Frame :=
  let frame := fs.getD i default
  let parent := if i > 0 then fs.getD (i - 1) default else canvasFrame cw ch
  let innerOffset := if i > 0 then off else 0
  let b := calculateBoundaries parent frame innerOffset
  let fp := applySpringForces S frame parent b (decide (i > 0))
  let fs1 := fs.set i fp.1
  if i > 0 then fs1.set (i - 1) fp.2 else fs1

/-- The spring loop of `updateSettlingPhysics` with `k` iterations
left: processes indices `k - 1` down to `0`, highest first. -/
def settleLoop (off S cw ch : ℚ) : ℕ → List Frame → List Frame
  | 0, fs => fs
  | k + 1, fs => settleLoop off S cw ch k (settleStep off S cw ch k fs)

/-- `Physics.updateSettlingPhysics(frames, canvasWidth, canvasHeight)`:
damp and integrate every frame, then run the spring loop from the last
index down to `0`. -/
def updateSettlingPhysics (P : Physics) (frames : List Frame) (cw ch : ℚ) : List Frame :=
  let fs := frames.map (integrate P.DAMPING)
  settleLoop P.FRAME_THICKNESS P.SPRING_STRENGTH cw ch fs.length fs

/-- `FramePusher._updatePhysics`: the per-tick physics dispatch. The
dragging branch calls `updateDragPhysics`; the settling branch is
commented out in the source, so the non-dragging case performs no
update. -/
def updatePhysicsTick (P : Physics) (dragging : Bool) (frames : List Frame) (numFrames : ℕ) : List Frame :=
  if dragging then updateDragPhysics P frames numFrames else frames

/-- The total horizontal spring impulse of one `_applySpringForces`
call as a function of the boundaries and the frame's (unchanging) `x`:
the sum of the left and right contributions. -/
def impX (S : ℚ) (b : Boundaries) (x : ℚ) : ℚ :=
  (if b.minX - x > 0 then (b.minX - x) * S else 0) +
    (if b.maxX - x < 0 then (b.maxX - x) * S else 0)

/-- The total vertical spring impulse of one `_applySpringForces` call:
the sum of the top and bottom contributions. -/
def impY (S : ℚ) (b : Boundaries) (y : ℚ) : ℚ :=
  (if b.minY - y > 0 then (b.minY - y) * S else 0) +
    (if b.maxY - y < 0 then (b.maxY - y) * S else 0)

/-- The boundaries frame `i` of `gs` is checked against in the spring
loop: parent `gs[i-1]` with inner offset `off` for `i > 0`, the canvas
with inner offset `0` for `i = 0`. -/
def frameBoundaries (off cw ch : ℚ) (gs : List Frame) (i : ℕ) : Boundaries :=
  let frame := gs.getD i default
  let parent := if i > 0 then gs.getD (i - 1) default else canvasFrame cw ch
  calculateBoundaries parent frame (if i > 0 then off else 0)

/-- The net spring impulse added to frame `i`'s horizontal velocity in
its own spring-loop iteration. -/
def ownVX (off S cw ch : ℚ) (gs : List Frame) (i : ℕ) : ℚ :=
  impX S (frameBoundaries off cw ch gs i) (gs.getD i default).x

/-- The net spring impulse added to frame `i`'s vertical velocity in
its own spring-loop iteration. -/
def ownVY (off S cw ch : ℚ) (gs : List Frame) (i : ℕ) : ℚ :=
  impY S (frameBoundaries off cw ch gs i) (gs.getD i default).y

/-- Closed form for frame `i` after the spring loop, starting from the
already-integrated list `gs`: position and size are untouched, and the
velocity receives the frame's own spring impulse plus the half-strength
reactive impulse from its child's iteration (when a child exists). -/
def settleSpecFrame (off S cw ch : ℚ) (gs : List Frame) (i : ℕ) : Frame :=
  let g := gs.getD i default
  let rx := if i + 1 < gs.length then ownVX off S cw ch gs (i + 1) * (1/2) else 0
  let ry := if i + 1 < gs.length then ownVY off S cw ch gs (i + 1) * (1/2) else 0
  { g with vx := g.vx + ownVX off S cw ch gs i - rx
           vy := g.vy + ownVY off S cw ch gs i - ry }

/-- Denotational description of `updateSettlingPhysics`, written from
the specification: damp-and-integrate every frame, then give every
frame its own spring impulse and the reactive half-impulse from its
child, all computed from the integrated positions. -/
def settleSpec (P : Physics) (frames : List Frame) (cw ch : ℚ) : List Frame :=
  let gs := frames.map (integrate P.DAMPING)
  (List.range gs.length).map (settleSpecFrame P.FRAME_THICKNESS P.SPRING_STRENGTH cw ch gs)

/-- Total absolute boundary violation of frame `i` against its parent
(or the canvas for `i = 0`), summed over the four directions, using the
same boundary computation as the settling engine. -/
def frameOverlap (off cw ch : ℚ) (gs : List Frame) (i : ℕ) : ℚ :=
  let frame := gs.getD i default
  let b := frameBoundaries off cw ch gs i
  max (b.minX - frame.x) 0 + max (frame.x - b.maxX) 0 +
    max (b.minY - frame.y) 0 + max (frame.y - b.maxY) 0

/-- Total absolute overlap over all frames and all four directions. -/
def totalOverlap (off cw ch : ℚ) (gs : List Frame) : ℚ :=
  ((List.range gs.length).map (frameOverlap off cw ch gs)).sum

/-- The configuration of `FramePusher`'s constructor:
`FRAME_THICKNESS = 20, GAP = 10, DAMPING = 0.9, SPRING_STRENGTH = 0.2`. -/
def defaultPhysics : Physics :=
  { FRAME_THICKNESS := 20, GAP := 10, DAMPING := 9/10, SPRING_STRENGTH := 1/5 }

/-- The three-frame concrete scenario: outer `{0,0,300,300}`, middle
`{10,10,200,200}`, handle already moved to `{280,10,40,40}`. -/
def scenarioFrames : List Frame :=
  [ { x := 0, y := 0, vx := 0, vy := 0, width := 300, height := 300 }
  , { x := 10, y := 10, vx := 0, vy := 0, width := 200, height := 200 }
  , { x := 280, y := 10, vx := 0, vy := 0, width := 40, height := 40 } ]

/-- A one-frame state violating the canvas's left boundary, used with a
large spring strength to exhibit overshoot. -/
def overshootPhysics : Physics :=
  { FRAME_THICKNESS := 20, GAP := 10, DAMPING := 1/2, SPRING_STRENGTH := 100 }

/-- The single frame of the overshoot scenario: `x = -30`, 30 px past
the canvas's left edge, at rest. -/
def overshootFrames : List Frame :=
  [ { x := -30, y := 45, vx := 0, vy := 0, width := 10, height := 10 } ]

/-- A one-frame state with nonzero velocity, inside a 100×100 canvas:
settling would move it, so it distinguishes the disabled settling branch
from an enabled one. -/
def movingFrames : List Frame :=
  [ { x := 0, y := 0, vx := 1, vy := 0, width := 10, height := 10 } ]

/-- The default configuration with a different `GAP`, for the
noninterference claim. -/
def gapVariantPhysics : Physics :=
  { FRAME_THICKNESS := 20, GAP := 37, DAMPING := 9/10, SPRING_STRENGTH := 1/5 }

/-- A one-frame rest state: zero velocity and no boundary violation
inside a 100×100 canvas. -/
def restFrames : List Frame :=
  [ { x := 30, y := 30, vx := 0, vy := 0, width := 40, height := 40 } ]

/-- Two frames agree on position and size (the fields the spring loop
reads but never writes). -/
def samePos (a b : Frame) : Prop :=
  a.x = b.x ∧ a.y = b.y ∧ a.width = b.width ∧ a.height = b.height

/-! ## List access lemmas -/

theorem getD_set_self {α : Type _} (l : List α) (i : ℕ) (a d : α) (h : i < l.length) :
    (l.set i a).getD i d = a := by
  simp [List.getD_eq_getElem?_getD, List.getElem?_set, h]

theorem getD_set_ne {α : Type _} (l : List α) {i j : ℕ} (a d : α) (h : i ≠ j) :
    (l.set i a).getD j d = l.getD j d := by
  simp [List.getD_eq_getElem?_getD, List.getElem?_set, h]

theorem getD_set_le {α : Type _} (l : List α) {i : ℕ} (a d : α) (h : l.length ≤ i) :
    (l.set i a).getD i d = l.getD i d := by
  rw [List.set_eq_of_length_le h]

theorem getD_eq_default {α : Type _} (l : List α) (d : α) {j : ℕ} (h : l.length ≤ j) :
    l.getD j d = d := by
  rw [List.getD_eq_getElem?_getD, List.getElem?_eq_none h]
  rfl

theorem ext_getD {α : Type _} (d : α) :
    ∀ (l₁ l₂ : List α), l₁.length = l₂.length →
      (∀ j, l₁.getD j d = l₂.getD j d) → l₁ = l₂
  | [], [], _, _ => rfl
  | [], _ :: _, hlen, _ => by simp at hlen
  | _ :: _, [], hlen, _ => by simp at hlen
  | a :: t₁, b :: t₂, hlen, h => by
    have h0 := h 0
    simp only [List.getD_cons_zero] at h0
    have ht : t₁ = t₂ :=
      ext_getD d t₁ t₂ (by simpa using hlen) (fun j => by simpa using h (j + 1))
    rw [h0, ht]

/-! ## Containment engine: structural lemmas -/

theorem pushPair_width (off : ℚ) (p c : Frame) : (pushPair off p c).width = p.width := by
  simp only [pushPair, applyLeftPush, applyRightPush, applyTopPush, applyBottomPush]
  split_ifs <;> rfl

theorem pushPair_height (off : ℚ) (p c : Frame) : (pushPair off p c).height = p.height := by
  simp only [pushPair, applyLeftPush, applyRightPush, applyTopPush, applyBottomPush]
  split_ifs <;> rfl

theorem pushPair_vx (off : ℚ) (p c : Frame) : (pushPair off p c).vx = p.vx := by
  simp only [pushPair, applyLeftPush, applyRightPush, applyTopPush, applyBottomPush]
  split_ifs <;> rfl

theorem pushPair_vy (off : ℚ) (p c : Frame) : (pushPair off p c).vy = p.vy := by
  simp only [pushPair, applyLeftPush, applyRightPush, applyTopPush, applyBottomPush]
  split_ifs <;> rfl

theorem pushPair_x (off : ℚ) (p c : Frame) :
    (pushPair off p c).x =
      max (min p.x (c.x - off)) (c.x + c.width - p.width + off) := by
  simp only [pushPair, applyLeftPush, applyRightPush, applyTopPush, applyBottomPush]
  split_ifs <;> simp_all [max_def, min_def] <;> split_ifs <;> linarith

theorem pushPair_y (off : ℚ) (p c : Frame) :
    (pushPair off p c).y =
      max (min p.y (c.y - off)) (c.y + c.height - p.height + off) := by
  simp only [pushPair, applyLeftPush, applyRightPush, applyTopPush, applyBottomPush]
  split_ifs <;> simp_all [max_def, min_def] <;> split_ifs <;> linarith

theorem clamp_idem (a tL tR : ℚ) :
    max (min (max (min a tL) tR) tL) tR = max (min a tL) tR := by
  rcases le_total tR tL with h | h <;>
    simp [max_def, min_def] <;> split_ifs <;> linarith

theorem pushPair_idem (off : ℚ) (p c : Frame) :
    pushPair off (pushPair off p c) c = pushPair off p c := by
  ext
  · rw [pushPair_x, pushPair_x, pushPair_width]
    exact clamp_idem p.x (c.x - off) (c.x + c.width - p.width + off)
  · rw [pushPair_y, pushPair_y, pushPair_height]
    exact clamp_idem p.y (c.y - off) (c.y + c.height - p.height + off)
  · rw [pushPair_vx, pushPair_vx]
  · rw [pushPair_vy, pushPair_vy]
  · rw [pushPair_width, pushPair_width]
  · rw [pushPair_height, pushPair_height]

theorem dragStep_length (off : ℚ) (i : ℕ) (fs : List Frame) :
    (dragStep off i fs).length = fs.length := by
  simp [dragStep]

theorem dragLoop_length (off : ℚ) :
    ∀ (k : ℕ) (fs : List Frame), (dragLoop off k fs).length = fs.length
  | 0, fs => rfl
  | k + 1, fs => by
    rw [dragLoop, dragLoop_length off k, dragStep_length]

theorem dragLoop_getD_ge (off : ℚ) :
    ∀ (k : ℕ) (fs : List Frame) (j : ℕ), k ≤ j →
      (dragLoop off k fs).getD j default = fs.getD j default
  | 0, fs, j, _ => rfl
  | k + 1, fs, j, hj => by
    rw [dragLoop, dragLoop_getD_ge off k _ j (by omega)]
    exact getD_set_ne fs _ _ (by omega)

theorem dragLoop_getD_lt (off : ℚ) :
    ∀ (k : ℕ) (fs : List Frame) (i : ℕ), i < k → k ≤ fs.length →
      (dragLoop off k fs).getD i default =
        pushPair off (fs.getD i default) ((dragLoop off k fs).getD (i + 1) default)
  | 0, _, _, hi, _ => absurd hi (by omega)
  | k + 1, fs, i, hi, hlen => by
    rw [dragLoop]
    rcases Nat.lt_or_ge i k with hik | hik
    · rw [dragLoop_getD_lt off k _ i hik (by rw [dragStep_length]; omega)]
      congr 1
      exact getD_set_ne fs _ _ (by omega)
    · have hik' : i = k := by omega
      subst hik'
      rw [dragLoop_getD_ge off i _ i (Nat.le_refl i),
        dragLoop_getD_ge off i _ (i + 1) (by omega), dragStep,
        getD_set_self _ _ _ _ (by omega),
        getD_set_ne fs _ _ (show i ≠ i + 1 by omega)]

theorem dragStep_getD_field (off : ℚ) (F : Frame → ℚ)
    (hF : ∀ p c, F (pushPair off p c) = F p) (i : ℕ) (fs : List Frame) (j : ℕ) :
    F ((dragStep off i fs).getD j default) = F (fs.getD j default) := by
  rcases eq_or_ne i j with rfl | hij
  · rcases Nat.lt_or_ge i fs.length with h | h
    · rw [dragStep, getD_set_self _ _ _ _ h, hF]
    · rw [dragStep, getD_set_le _ _ _ h]
  · rw [dragStep, getD_set_ne fs _ _ hij]

theorem dragLoop_getD_field (off : ℚ) (F : Frame → ℚ)
    (hF : ∀ p c, F (pushPair off p c) = F p) :
    ∀ (k : ℕ) (fs : List Frame) (j : ℕ),
      F ((dragLoop off k fs).getD j default) = F (fs.getD j default)
  | 0, _, _ => rfl
  | k + 1, fs, j => by
    rw [dragLoop, dragLoop_getD_field off F hF k _ j, dragStep_getD_field off F hF]

/-! ## Containment engine: claim theorems -/

/-- C1: one call to `updateDragPhysics` with `numFrames ≥ 2` keeps the
length, leaves every frame from index `numFrames - 1` on (in particular
the handle) unchanged, and gives every index `i ≤ numFrames - 2` the
value of its original frame clamped — by the four rules with offset
`FRAME_THICKNESS`, in order left, right, top, bottom — against the
already-updated child at `i + 1`, which is exactly processing the pairs
from `numFrames - 2` down to `0`. -/
theorem updateDragPhysics_pairwise (P : Physics) (fs : List Frame) (n : ℕ)
    (h2 : 2 ≤ n) (hn : n ≤ fs.length) :
    (updateDragPhysics P fs n).length = fs.length ∧
    (∀ j, n - 1 ≤ j → (updateDragPhysics P fs n).getD j default = fs.getD j default) ∧
    (∀ i, i ≤ n - 2 →
      (updateDragPhysics P fs n).getD i default =
        pushPair P.FRAME_THICKNESS (fs.getD i default)
          ((updateDragPhysics P fs n).getD (i + 1) default)) :=
  ⟨dragLoop_length _ _ _,
   fun j hj => dragLoop_getD_ge _ _ _ j hj,
   fun i hi => dragLoop_getD_lt _ _ _ i (by omega) (by omega)⟩

/-- Witness for C1 at the concrete three-frame scenario. -/
theorem updateDragPhysics_pairwise_witness :
    2 ≤ 3 ∧ 3 ≤ scenarioFrames.length ∧
    ((updateDragPhysics defaultPhysics scenarioFrames 3).length = scenarioFrames.length ∧
      (∀ j, 3 - 1 ≤ j →
        (updateDragPhysics defaultPhysics scenarioFrames 3).getD j default =
          scenarioFrames.getD j default) ∧
      (∀ i, i ≤ 3 - 2 →
        (updateDragPhysics defaultPhysics scenarioFrames 3).getD i default =
          pushPair defaultPhysics.FRAME_THICKNESS (scenarioFrames.getD i default)
            ((updateDragPhysics defaultPhysics scenarioFrames 3).getD (i + 1) default))) :=
  ⟨by norm_num, by norm_num [scenarioFrames],
    updateDragPhysics_pairwise defaultPhysics scenarioFrames 3 (by norm_num)
      (by norm_num [scenarioFrames])⟩

/-- C3: with `numFrames` equal to the length of the frame list, a
second call to `updateDragPhysics` changes nothing: the output of one
call is a fixed point. -/
theorem updateDragPhysics_idempotent (P : Physics) (fs : List Frame) (n : ℕ)
    (hn : n = fs.length) :
    updateDragPhysics P (updateDragPhysics P fs n) n = updateDragPhysics P fs n := by
  subst hn
  unfold updateDragPhysics
  set off := P.FRAME_THICKNESS with hoff
  set k := fs.length - 1 with hk
  set g := dragLoop off k fs with hg
  have hkle : k ≤ fs.length := by omega
  have aux : ∀ m j, k ≤ j + m → (dragLoop off k g).getD j default = g.getD j default := by
    intro m
    induction m with
    | zero =>
      intro j hj
      exact dragLoop_getD_ge off k g j (by omega)
    | succ m ih =>
      intro j hj
      rcases le_or_lt k (j + m) with h | h
      · exact ih j h
      · have hjk : j < k := by omega
        rw [dragLoop_getD_lt off k g j hjk (by rw [hg, dragLoop_length]; omega),
          ih (j + 1) (by omega), hg,
          dragLoop_getD_lt off k fs j hjk hkle]
        exact pushPair_idem off _ _
  exact ext_getD default _ _ (dragLoop_length off k g) (fun j => aux k j (by omega))

/-- Witness for C3 at the concrete three-frame scenario. -/
theorem updateDragPhysics_idempotent_witness :
    3 = scenarioFrames.length ∧
    updateDragPhysics defaultPhysics (updateDragPhysics defaultPhysics scenarioFrames 3) 3 =
      updateDragPhysics defaultPhysics scenarioFrames 3 :=
  ⟨by norm_num [scenarioFrames],
    updateDragPhysics_idempotent defaultPhysics scenarioFrames 3
      (by norm_num [scenarioFrames])⟩

/-- C9: the sequential pair update applies the left clamp before the
right clamp (and the top before the bottom), so the parent's resulting
coordinate is `max (min old target_left) target_right`: when both
clamps could fire (child larger than parent), the right- and
bottom-edge clamps take precedence. -/
theorem pushPair_clamp_order (P : Physics) (p c : Frame) :
    (pushPair P.FRAME_THICKNESS p c).x =
      max (min p.x (c.x - P.FRAME_THICKNESS))
        (c.x + c.width - p.width + P.FRAME_THICKNESS) ∧
    (pushPair P.FRAME_THICKNESS p c).y =
      max (min p.y (c.y - P.FRAME_THICKNESS))
        (c.y + c.height - p.height + P.FRAME_THICKNESS) :=
  ⟨pushPair_x _ p c, pushPair_y _ p c⟩

/-- C10: `updateDragPhysics` with `numFrames ≤ 1` (including `0` and an
empty list) never enters the pair loop and is the identity. -/
theorem updateDragPhysics_small_identity (P : Physics) (fs : List Frame) (n : ℕ)
    (h : n ≤ 1) : updateDragPhysics P fs n = fs := by
  have h0 : n - 1 = 0 := by omega
  unfold updateDragPhysics
  rw [h0]
  rfl

/-- Witness for C10: the empty list with `numFrames = 0` and a
singleton with `numFrames = 1` are both left unchanged. -/
theorem updateDragPhysics_small_identity_witness :
    (0 ≤ 1 ∧ updateDragPhysics defaultPhysics [] 0 = []) ∧
    (1 ≤ 1 ∧ updateDragPhysics defaultPhysics movingFrames 1 = movingFrames) :=
  ⟨⟨by norm_num, updateDragPhysics_small_identity defaultPhysics [] 0 (by norm_num)⟩,
   ⟨le_refl 1, updateDragPhysics_small_identity defaultPhysics movingFrames 1 (le_refl 1)⟩⟩

/-- C2 counterexample: in the concrete scenario (thickness 20, outer
`{0,0,300,300}`, middle `{10,10,200,200}`, handle at `{280,10,40,40}`),
one call to `updateDragPhysics` does not set `outer.x` to `120`: the
left rule never fires for the outer frame (its `x = 0` is not greater
than `140 - 20`). -/
theorem scenario_outer_x_ne_120 :
    ((updateDragPhysics defaultPhysics scenarioFrames 3).getD 0 default).x ≠ 120 := by
  norm_num [updateDragPhysics, dragLoop, dragStep, pushPair, applyLeftPush, applyRightPush,
    applyTopPush, applyBottomPush, scenarioFrames, defaultPhysics, List.getD]

/-- C2 amended: in the concrete scenario, one call to
`updateDragPhysics` sets `middle.x` to `140 = 280 + 40 - 200 + 20` and
`outer.x` to `60 = 140 + 200 - 300 + 20`, the right rule recomputed
against the middle frame's post-update `x`. -/
theorem scenario_drag_values :
    ((updateDragPhysics defaultPhysics scenarioFrames 3).getD 1 default).x = 140 ∧
    ((updateDragPhysics defaultPhysics scenarioFrames 3).getD 0 default).x = 60 := by
  constructor <;>
    norm_num [updateDragPhysics, dragLoop, dragStep, pushPair, applyLeftPush, applyRightPush,
      applyTopPush, applyBottomPush, scenarioFrames, defaultPhysics, List.getD]

/-! ## Settling engine: structural lemmas -/

theorem applySpringForces_eq (S : ℚ) (f p : Frame) (b : Boundaries) (hp : Bool) :
    applySpringForces S f p b hp =
      ({ f with vx := f.vx + impX S b f.x, vy := f.vy + impY S b f.y },
        if hp then
          { p with vx := p.vx - impX S b f.x * (1/2), vy := p.vy - impY S b f.y * (1/2) }
        else p) := by
  cases hp <;>
    by_cases h1 : b.minX - f.x > 0 <;>
    by_cases h2 : b.maxX - f.x < 0 <;>
    by_cases h3 : b.minY - f.y > 0 <;>
    by_cases h4 : b.maxY - f.y < 0 <;>
      (simp [applySpringForces, impX, impY, h1, h2, h3, h4, Prod.ext_iff, Frame.ext_iff] <;>
        ring_nf <;> simp)

theorem settleStep_length (off S cw ch : ℚ) (i : ℕ) (fs : List Frame) :
    (settleStep off S cw ch i fs).length = fs.length := by
  unfold settleStep
  split_ifs <;> simp

theorem settleStep_getD_self (off S cw ch : ℚ) (i : ℕ) (fs : List Frame)
    (hi : i < fs.length) :
    (settleStep off S cw ch i fs).getD i default =
      { fs.getD i default with
        vx := (fs.getD i default).vx + ownVX off S cw ch fs i
        vy := (fs.getD i default).vy + ownVY off S cw ch fs i } := by
  rcases Nat.eq_zero_or_pos i with rfl | hpos
  · simp only [settleStep, applySpringForces_eq, gt_iff_lt, lt_irrefl, if_false,
      decide_eq_true_eq, reduceIte]
    rw [getD_set_self _ _ _ _ hi]
    simp [ownVX, ownVY, frameBoundaries]
  · have hgt : i > 0 := hpos
    simp only [settleStep, applySpringForces_eq, if_pos hgt, decide_eq_true_eq]
    rw [getD_set_ne _ _ _ (by omega : i - 1 ≠ i), getD_set_self _ _ _ _ hi]
    simp [ownVX, ownVY, frameBoundaries, if_pos hgt]

theorem settleStep_getD_parent (off S cw ch : ℚ) (i : ℕ) (fs : List Frame)
    (hi : i < fs.length) (hpos : 0 < i) :
    (settleStep off S cw ch i fs).getD (i - 1) default =
      { fs.getD (i - 1) default with
        vx := (fs.getD (i - 1) default).vx - ownVX off S cw ch fs i * (1/2)
        vy := (fs.getD (i - 1) default).vy - ownVY off S cw ch fs i * (1/2) } := by
  have hgt : i > 0 := hpos
  simp only [settleStep, applySpringForces_eq, if_pos hgt, decide_eq_true_eq]
  rw [getD_set_self _ _ _ _ (by simpa using by omega : i - 1 < (fs.set i _).length)]
  simp [ownVX, ownVY, frameBoundaries, if_pos hgt]

theorem settleStep_getD_other (off S cw ch : ℚ) (i : ℕ) (fs : List Frame) (j : ℕ)
    (hji : j ≠ i) (hji1 : j + 1 ≠ i) :
    (settleStep off S cw ch i fs).getD j default = fs.getD j default := by
  simp only [settleStep]
  split_ifs with h
  · rw [getD_set_ne _ _ _ (by omega : i - 1 ≠ j), getD_set_ne _ _ _ (by omega : i ≠ j)]
  · rw [getD_set_ne _ _ _ (by omega : i ≠ j)]

theorem samePos_refl (a : Frame) : samePos a a := ⟨rfl, rfl, rfl, rfl⟩

theorem samePos_trans {a b c : Frame} (h₁ : samePos a b) (h₂ : samePos b c) : samePos a c :=
  ⟨h₁.1.trans h₂.1, h₁.2.1.trans h₂.2.1, h₁.2.2.1.trans h₂.2.2.1, h₁.2.2.2.trans h₂.2.2.2⟩

theorem settleStep_samePos (off S cw ch : ℚ) (i : ℕ) (fs : List Frame)
    (hi : i < fs.length) (j : ℕ) :
    samePos ((settleStep off S cw ch i fs).getD j default) (fs.getD j default) := by
  rcases eq_or_ne j i with rfl | hji
  · rw [settleStep_getD_self off S cw ch j fs hi]
    exact ⟨rfl, rfl, rfl, rfl⟩
  · rcases eq_or_ne (j + 1) i with hji1 | hji1
    · have hp := settleStep_getD_parent off S cw ch i fs hi (by omega)
      rw [show i - 1 = j by omega] at hp
      rw [hp]
      exact ⟨rfl, rfl, rfl, rfl⟩
    · rw [settleStep_getD_other off S cw ch i fs j hji hji1]
      exact samePos_refl _

theorem settleLoop_length (off S cw ch : ℚ) :
    ∀ (m : ℕ) (fs : List Frame), (settleLoop off S cw ch m fs).length = fs.length
  | 0, _ => rfl
  | k + 1, fs => by
    rw [settleLoop, settleLoop_length off S cw ch k, settleStep_length]

theorem settleLoop_samePos (off S cw ch : ℚ) :
    ∀ (m : ℕ) (fs : List Frame), m ≤ fs.length → ∀ j,
      samePos ((settleLoop off S cw ch m fs).getD j default) (fs.getD j default)
  | 0, _, _, _ => samePos_refl _
  | k + 1, fs, hm, j => by
    rw [settleLoop]
    exact samePos_trans
      (settleLoop_samePos off S cw ch k _ (by rw [settleStep_length]; omega) j)
      (settleStep_samePos off S cw ch k fs (by omega) j)

theorem ownVX_congr (off S cw ch : ℚ) (hs gs : List Frame)
    (h : ∀ j, samePos (hs.getD j default) (gs.getD j default)) (i : ℕ) :
    ownVX off S cw ch hs i = ownVX off S cw ch gs i := by
  obtain ⟨hx, hy, hw, hh⟩ := h i
  obtain ⟨px, py, pw, ph⟩ := h (i - 1)
  rcases Nat.eq_zero_or_pos i with rfl | hpos
  · simp only [ownVX, frameBoundaries, calculateBoundaries, impX, gt_iff_lt, lt_irrefl,
      reduceIte]
    rw [hx, hw]
  · simp only [ownVX, frameBoundaries, calculateBoundaries, impX, if_pos hpos]
    rw [hx, hw, px, pw]

theorem ownVY_congr (off S cw ch : ℚ) (hs gs : List Frame)
    (h : ∀ j, samePos (hs.getD j default) (gs.getD j default)) (i : ℕ) :
    ownVY off S cw ch hs i = ownVY off S cw ch gs i := by
  obtain ⟨hx, hy, hw, hh⟩ := h i
  obtain ⟨px, py, pw, ph⟩ := h (i - 1)
  rcases Nat.eq_zero_or_pos i with rfl | hpos
  · simp only [ownVY, frameBoundaries, calculateBoundaries, impY, gt_iff_lt, lt_irrefl,
      reduceIte]
    rw [hy, hh]
  · simp only [ownVY, frameBoundaries, calculateBoundaries, impY, if_pos hpos]
    rw [hy, hh, py, ph]

theorem settleLoop_getD_vx (off S cw ch : ℚ) :
    ∀ (m : ℕ) (fs : List Frame), m ≤ fs.length → ∀ j,
      ((settleLoop off S cw ch m fs).getD j default).vx =
        (fs.getD j default).vx + (if j < m then ownVX off S cw ch fs j else 0)
          - (if j + 2 ≤ m then ownVX off S cw ch fs (j + 1) * (1/2) else 0)
  | 0, fs, _, j => by simp [settleLoop]
  | k + 1, fs, hm, j => by
    have hk : k < fs.length := by omega
    have hstep := settleStep_samePos off S cw ch k fs hk
    have hcongr := ownVX_congr off S cw ch (settleStep off S cw ch k fs) fs hstep
    rw [settleLoop,
      settleLoop_getD_vx off S cw ch k _ (by rw [settleStep_length]; omega) j,
      hcongr j, hcongr (j + 1)]
    rcases eq_or_ne j k with rfl | hjk
    · rw [settleStep_getD_self off S cw ch j fs hk]
      rw [if_neg (by omega : ¬ j < j), if_neg (by omega : ¬ j + 2 ≤ j),
        if_pos (by omega : j < j + 1), if_neg (by omega : ¬ j + 2 ≤ j + 1)]
      ring
    · rcases eq_or_ne (j + 1) k with hjk1 | hjk1
      · have hp := settleStep_getD_parent off S cw ch k fs hk (by omega)
        rw [show k - 1 = j by omega] at hp
        rw [hp]
        rw [if_pos (by omega : j < k), if_neg (by omega : ¬ j + 2 ≤ k),
          if_pos (by omega : j < k + 1), if_pos (by omega : j + 2 ≤ k + 1), ← hjk1]
        ring
      · rw [settleStep_getD_other off S cw ch k fs j hjk hjk1]
        simp only [show (j < k) ↔ (j < k + 1) from by omega,
          show (j + 2 ≤ k) ↔ (j + 2 ≤ k + 1) from by omega]

theorem settleLoop_getD_vy (off S cw ch : ℚ) :
    ∀ (m : ℕ) (fs : List Frame), m ≤ fs.length → ∀ j,
      ((settleLoop off S cw ch m fs).getD j default).vy =
        (fs.getD j default).vy + (if j < m then ownVY off S cw ch fs j else 0)
          - (if j + 2 ≤ m then ownVY off S cw ch fs (j + 1) * (1/2) else 0)
  | 0, fs, _, j => by simp [settleLoop]
  | k + 1, fs, hm, j => by
    have hk : k < fs.length := by omega
    have hstep := settleStep_samePos off S cw ch k fs hk
    have hcongr := ownVY_congr off S cw ch (settleStep off S cw ch k fs) fs hstep
    rw [settleLoop,
      settleLoop_getD_vy off S cw ch k _ (by rw [settleStep_length]; omega) j,
      hcongr j, hcongr (j + 1)]
    rcases eq_or_ne j k with rfl | hjk
    · rw [settleStep_getD_self off S cw ch j fs hk]
      rw [if_neg (by omega : ¬ j < j), if_neg (by omega : ¬ j + 2 ≤ j),
        if_pos (by omega : j < j + 1), if_neg (by omega : ¬ j + 2 ≤ j + 1)]
      ring
    · rcases eq_or_ne (j + 1) k with hjk1 | hjk1
      · have hp := settleStep_getD_parent off S cw ch k fs hk (by omega)
        rw [show k - 1 = j by omega] at hp
        rw [hp]
        rw [if_pos (by omega : j < k), if_neg (by omega : ¬ j + 2 ≤ k),
          if_pos (by omega : j < k + 1), if_pos (by omega : j + 2 ≤ k + 1), ← hjk1]
        ring
      · rw [settleStep_getD_other off S cw ch k fs j hjk hjk1]
        simp only [show (j < k) ↔ (j < k + 1) from by omega,
          show (j + 2 ≤ k) ↔ (j + 2 ≤ k + 1) from by omega]

theorem rangeMap_getD {β : Type _} [Inhabited β] (n : ℕ) (f : ℕ → β) (j : ℕ) (hj : j < n) :
    ((List.range n).map f).getD j default = f j := by
  rw [List.getD_eq_getElem?_getD, List.getElem?_map, List.getElem?_range hj]
  rfl

theorem getD_map_integrate_pos (D : ℚ) (fs : List Frame) (j : ℕ) :
    ((fs.map (integrate D)).getD j default).width = (fs.getD j default).width ∧
    ((fs.map (integrate D)).getD j default).height = (fs.getD j default).height := by
  rcases lt_or_ge j fs.length with hj | hj
  · rw [List.getD_eq_getElem?_getD, List.getElem?_map, List.getElem?_eq_getElem hj,
      List.getD_eq_getElem?_getD, List.getElem?_eq_getElem hj]
    exact ⟨rfl, rfl⟩
  · rw [getD_eq_default _ _ (by simpa using hj), getD_eq_default _ _ hj]
    exact ⟨rfl, rfl⟩

theorem integrate_eq_self (D : ℚ) (f : Frame) (hvx : f.vx = 0) (hvy : f.vy = 0) :
    integrate D f = f := by
  ext <;> simp [integrate, hvx, hvy]

theorem ownVX_eq_zero_of_overlap (off S cw ch : ℚ) (gs : List Frame) (i : ℕ)
    (h : frameOverlap off cw ch gs i = 0) : ownVX off S cw ch gs i = 0 := by
  simp only [frameOverlap] at h
  simp only [ownVX, impX]
  set b := frameBoundaries off cw ch gs i with hb
  set fr := gs.getD i default with hfr
  have n1 : (0:ℚ) ≤ max (b.minX - fr.x) 0 := le_max_right _ _
  have n2 : (0:ℚ) ≤ max (fr.x - b.maxX) 0 := le_max_right _ _
  have n3 : (0:ℚ) ≤ max (b.minY - fr.y) 0 := le_max_right _ _
  have n4 : (0:ℚ) ≤ max (fr.y - b.maxY) 0 := le_max_right _ _
  have l1 : b.minX - fr.x ≤ 0 := by
    have := le_max_left (b.minX - fr.x) 0
    linarith
  have l2 : fr.x - b.maxX ≤ 0 := by
    have := le_max_left (fr.x - b.maxX) 0
    linarith
  rw [if_neg (by linarith), if_neg (by linarith)]
  norm_num

theorem ownVY_eq_zero_of_overlap (off S cw ch : ℚ) (gs : List Frame) (i : ℕ)
    (h : frameOverlap off cw ch gs i = 0) : ownVY off S cw ch gs i = 0 := by
  simp only [frameOverlap] at h
  simp only [ownVY, impY]
  set b := frameBoundaries off cw ch gs i with hb
  set fr := gs.getD i default with hfr
  have n1 : (0:ℚ) ≤ max (b.minX - fr.x) 0 := le_max_right _ _
  have n2 : (0:ℚ) ≤ max (fr.x - b.maxX) 0 := le_max_right _ _
  have n3 : (0:ℚ) ≤ max (b.minY - fr.y) 0 := le_max_right _ _
  have n4 : (0:ℚ) ≤ max (fr.y - b.maxY) 0 := le_max_right _ _
  have l3 : b.minY - fr.y ≤ 0 := by
    have := le_max_left (b.minY - fr.y) 0
    linarith
  have l4 : fr.y - b.maxY ≤ 0 := by
    have := le_max_left (fr.y - b.maxY) 0
    linarith
  rw [if_neg (by linarith), if_neg (by linarith)]
  norm_num

/-! ## Settling engine and driver: claim theorems -/

/-- C4: one call to `updateSettlingPhysics` equals the specification's
description: first every frame is damped (`vx *= DAMPING`,
`vy *= DAMPING`) and integrated (`x += vx`, `y += vy`); then, with
boundaries computed from the parent (`frames[i-1]` with inner offset
`FRAME_THICKNESS`, or the zero-velocity canvas rectangle with inner
offset `0` for `i = 0`), every frame's velocity receives
`overlap * SPRING_STRENGTH` for each violated direction and
`-overlap * SPRING_STRENGTH * 0.5` reactively from its child's
iteration, the reactive part skipped when the parent is the canvas. -/
theorem updateSettlingPhysics_eq_settleSpec (P : Physics) (frames : List Frame) (cw ch : ℚ) :
    updateSettlingPhysics P frames cw ch = settleSpec P frames cw ch := by
  unfold updateSettlingPhysics settleSpec
  dsimp only
  set off := P.FRAME_THICKNESS
  set S := P.SPRING_STRENGTH
  set gs := frames.map (integrate P.DAMPING) with hgs
  apply ext_getD default
  · simp [settleLoop_length]
  · intro j
    rcases lt_or_ge j gs.length with hj | hj
    · obtain ⟨ex, ey, ew, eh⟩ := settleLoop_samePos off S cw ch gs.length gs (le_refl _) j
      have hvx := settleLoop_getD_vx off S cw ch gs.length gs (le_refl _) j
      have hvy := settleLoop_getD_vy off S cw ch gs.length gs (le_refl _) j
      rw [rangeMap_getD gs.length _ j hj]
      ext
      · rw [ex]; simp [settleSpecFrame]
      · rw [ey]; simp [settleSpecFrame]
      · rw [hvx, if_pos hj]
        simp only [settleSpecFrame,
          show (j + 2 ≤ gs.length) ↔ (j + 1 < gs.length) from by omega]
      · rw [hvy, if_pos hj]
        simp only [settleSpecFrame,
          show (j + 2 ≤ gs.length) ↔ (j + 1 < gs.length) from by omega]
      · rw [ew]; simp [settleSpecFrame]
      · rw [eh]; simp [settleSpecFrame]
    · rw [getD_eq_default _ _ (by rw [settleLoop_length]; omega),
        getD_eq_default _ _ (by rw [List.length_map, List.length_range]; omega)]

/-- C6: `updateDragPhysics` (with a frame count bounded by the list
length, as in every caller) never modifies any frame's `width`,
`height`, `vx` or `vy`, and `updateSettlingPhysics` never modifies any
frame's `width` or `height`. -/
theorem engines_preserve_size (P : Physics) (fs : List Frame) (n : ℕ) (cw ch : ℚ) (j : ℕ)
    (hn : n ≤ fs.length) :
    ((updateDragPhysics P fs n).getD j default).width = (fs.getD j default).width ∧
    ((updateDragPhysics P fs n).getD j default).height = (fs.getD j default).height ∧
    ((updateDragPhysics P fs n).getD j default).vx = (fs.getD j default).vx ∧
    ((updateDragPhysics P fs n).getD j default).vy = (fs.getD j default).vy ∧
    ((updateSettlingPhysics P fs cw ch).getD j default).width = (fs.getD j default).width ∧
    ((updateSettlingPhysics P fs cw ch).getD j default).height = (fs.getD j default).height := by
  refine ⟨dragLoop_getD_field _ _ (fun p c => pushPair_width _ p c) _ fs j,
    dragLoop_getD_field _ _ (fun p c => pushPair_height _ p c) _ fs j,
    dragLoop_getD_field _ _ (fun p c => pushPair_vx _ p c) _ fs j,
    dragLoop_getD_field _ _ (fun p c => pushPair_vy _ p c) _ fs j, ?_, ?_⟩ <;>
  · obtain ⟨_, _, ew, eh⟩ :=
      settleLoop_samePos P.FRAME_THICKNESS P.SPRING_STRENGTH cw ch
        (fs.map (integrate P.DAMPING)).length (fs.map (integrate P.DAMPING)) (le_refl _) j
    obtain ⟨mw, mh⟩ := getD_map_integrate_pos P.DAMPING fs j
    unfold updateSettlingPhysics
    dsimp only
    first
      | exact ew.trans mw
      | exact eh.trans mh

/-- Witness for C6 at a concrete one-frame state. -/
theorem engines_preserve_size_witness :
    1 ≤ movingFrames.length ∧
    (((updateDragPhysics defaultPhysics movingFrames 1).getD 0 default).width =
        (movingFrames.getD 0 default).width ∧
      ((updateDragPhysics defaultPhysics movingFrames 1).getD 0 default).height =
        (movingFrames.getD 0 default).height ∧
      ((updateDragPhysics defaultPhysics movingFrames 1).getD 0 default).vx =
        (movingFrames.getD 0 default).vx ∧
      ((updateDragPhysics defaultPhysics movingFrames 1).getD 0 default).vy =
        (movingFrames.getD 0 default).vy ∧
      ((updateSettlingPhysics defaultPhysics movingFrames 100 100).getD 0 default).width =
        (movingFrames.getD 0 default).width ∧
      ((updateSettlingPhysics defaultPhysics movingFrames 100 100).getD 0 default).height =
        (movingFrames.getD 0 default).height) :=
  ⟨by norm_num [movingFrames],
    engines_preserve_size defaultPhysics movingFrames 1 100 100 0
      (by norm_num [movingFrames])⟩

/-- C8: the engines do not read `GAP`: two configurations that agree on
`FRAME_THICKNESS`, `DAMPING` and `SPRING_STRENGTH` (so may differ only
in `GAP`) produce identical outputs on equal inputs. -/
theorem gap_noninterference (P₁ P₂ : Physics) (fs : List Frame) (n : ℕ) (cw ch : ℚ)
    (hT : P₁.FRAME_THICKNESS = P₂.FRAME_THICKNESS)
    (hD : P₁.DAMPING = P₂.DAMPING)
    (hS : P₁.SPRING_STRENGTH = P₂.SPRING_STRENGTH) :
    updateDragPhysics P₁ fs n = updateDragPhysics P₂ fs n ∧
    updateSettlingPhysics P₁ fs cw ch = updateSettlingPhysics P₂ fs cw ch := by
  unfold updateDragPhysics updateSettlingPhysics
  rw [hT, hD, hS]
  exact ⟨rfl, rfl⟩

/-- Witness for C8: the default configuration against one that differs
only in `GAP`. -/
theorem gap_noninterference_witness :
    defaultPhysics.GAP ≠ gapVariantPhysics.GAP ∧
    defaultPhysics.FRAME_THICKNESS = gapVariantPhysics.FRAME_THICKNESS ∧
    defaultPhysics.DAMPING = gapVariantPhysics.DAMPING ∧
    defaultPhysics.SPRING_STRENGTH = gapVariantPhysics.SPRING_STRENGTH ∧
    (updateDragPhysics defaultPhysics scenarioFrames 3 =
        updateDragPhysics gapVariantPhysics scenarioFrames 3 ∧
      updateSettlingPhysics defaultPhysics scenarioFrames 100 100 =
        updateSettlingPhysics gapVariantPhysics scenarioFrames 100 100) :=
  ⟨by norm_num [defaultPhysics, gapVariantPhysics], rfl, rfl, rfl,
    gap_noninterference defaultPhysics gapVariantPhysics scenarioFrames 3 100 100 rfl rfl rfl⟩

/-- C5 counterexample: on a tick with the dragging flag false, the
driver leaves the frames untouched (the settling call is commented
out), while `updateSettlingPhysics` would have moved the frame with
velocity `1`: the driver does not invoke the settling engine. -/
theorem tick_not_settling :
    updatePhysicsTick defaultPhysics false movingFrames 1 = movingFrames ∧
    updateSettlingPhysics defaultPhysics movingFrames 100 100 ≠ movingFrames := by
  refine ⟨rfl, fun h => ?_⟩
  have hx := congrArg (fun l => ((l.getD 0 default).x)) h
  norm_num [updateSettlingPhysics, settleLoop, settleStep, integrate, applySpringForces,
    calculateBoundaries, canvasFrame, movingFrames, defaultPhysics, List.getD] at hx

/-- C5 amended: on every tick the driver invokes `updateDragPhysics`
when the dragging flag is true and performs no physics update at all
when it is false. -/
theorem updatePhysicsTick_branches (P : Physics) (fs : List Frame) (n : ℕ) :
    updatePhysicsTick P true fs n = updateDragPhysics P fs n ∧
    updatePhysicsTick P false fs n = fs :=
  ⟨rfl, rfl⟩

/-- C7 counterexample: in the overshoot scenario (`DAMPING = 1/2 ∈
(0,1)`, `SPRING_STRENGTH = 100 > 0`, one frame 30 px past the canvas's
left edge), the total absolute overlap is `30` both initially and
after one call, but `1380` after the second call: repeated settling
calls do not monotonically reduce the total absolute overlap. -/
theorem overlap_not_monotone :
    0 < overshootPhysics.DAMPING ∧ overshootPhysics.DAMPING < 1 ∧
    0 < overshootPhysics.SPRING_STRENGTH ∧
    0 < totalOverlap overshootPhysics.FRAME_THICKNESS 100 100 overshootFrames ∧
    totalOverlap overshootPhysics.FRAME_THICKNESS 100 100
        (updateSettlingPhysics overshootPhysics overshootFrames 100 100) <
      totalOverlap overshootPhysics.FRAME_THICKNESS 100 100
        (updateSettlingPhysics overshootPhysics
          (updateSettlingPhysics overshootPhysics overshootFrames 100 100) 100 100) := by
  norm_num [totalOverlap, frameOverlap, frameBoundaries, updateSettlingPhysics, settleLoop,
    settleStep, integrate, applySpringForces, calculateBoundaries, canvasFrame,
    overshootPhysics, overshootFrames, List.getD, List.range_succ]

/-- C7 amended: a rest state — every velocity zero and no boundary
violation anywhere — is a fixed point of `updateSettlingPhysics`;
monotonic decay of the total absolute overlap does not hold in general
(see the overshoot counterexample). -/
theorem settling_rest_fixed_point (P : Physics) (fs : List Frame) (cw ch : ℚ)
    (hv : ∀ f ∈ fs, f.vx = 0 ∧ f.vy = 0)
    (ho : ∀ i, i < fs.length → frameOverlap P.FRAME_THICKNESS cw ch fs i = 0) :
    updateSettlingPhysics P fs cw ch = fs := by
  unfold updateSettlingPhysics
  dsimp only
  set off := P.FRAME_THICKNESS
  set S := P.SPRING_STRENGTH
  have hmap : fs.map (integrate P.DAMPING) = fs := by
    rw [List.map_congr_left (fun f hf => integrate_eq_self P.DAMPING f (hv f hf).1 (hv f hf).2)]
    exact List.map_id fs
  rw [hmap]
  apply ext_getD default
  · exact settleLoop_length off S cw ch fs.length fs
  · intro j
    obtain ⟨ex, ey, ew, eh⟩ := settleLoop_samePos off S cw ch fs.length fs (le_refl _) j
    have hvx := settleLoop_getD_vx off S cw ch fs.length fs (le_refl _) j
    have hvy := settleLoop_getD_vy off S cw ch fs.length fs (le_refl _) j
    have h1x : (if j < fs.length then ownVX off S cw ch fs j else 0) = 0 := by
      split_ifs with h
      · exact ownVX_eq_zero_of_overlap off S cw ch fs j (ho j h)
      · rfl
    have h2x : (if j + 2 ≤ fs.length then ownVX off S cw ch fs (j + 1) * (1/2) else 0) = 0 := by
      split_ifs with h
      · rw [ownVX_eq_zero_of_overlap off S cw ch fs (j + 1) (ho (j + 1) (by omega))]
        ring
      · rfl
    have h1y : (if j < fs.length then ownVY off S cw ch fs j else 0) = 0 := by
      split_ifs with h
      · exact ownVY_eq_zero_of_overlap off S cw ch fs j (ho j h)
      · rfl
    have h2y : (if j + 2 ≤ fs.length then ownVY off S cw ch fs (j + 1) * (1/2) else 0) = 0 := by
      split_ifs with h
      · rw [ownVY_eq_zero_of_overlap off S cw ch fs (j + 1) (ho (j + 1) (by omega))]
        ring
      · rfl
    ext
    · exact ex
    · exact ey
    · rw [hvx, h1x, h2x]; ring
    · rw [hvy, h1y, h2y]; ring
    · exact ew
    · exact eh

/-- Witness for the amended C7 at a concrete rest state. -/
theorem settling_rest_fixed_point_witness :
    (∀ f ∈ restFrames, f.vx = 0 ∧ f.vy = 0) ∧
    (∀ i, i < restFrames.length →
      frameOverlap defaultPhysics.FRAME_THICKNESS 100 100 restFrames i = 0) ∧
    updateSettlingPhysics defaultPhysics restFrames 100 100 = restFrames := by
  refine ⟨?_, ?_, settling_rest_fixed_point defaultPhysics restFrames 100 100 ?_ ?_⟩ <;>
    first
    | · intro f hf
        simp only [restFrames, List.mem_singleton] at hf
        subst hf
        exact ⟨rfl, rfl⟩
    | · intro i hi
        simp only [restFrames, List.length_singleton] at hi
        interval_cases i
        norm_num [frameOverlap, frameBoundaries, calculateBoundaries, canvasFrame,
          restFrames, defaultPhysics, List.getD]
